import Mathlib

/-!
Verification development for the PSXtrend breakout scanner.

The code is embedded shallowly:
* a pandas float value is modelled by `EF` — an exact rational together with
  the IEEE special values `nan`, `inf`, `ninf`; arithmetic and comparisons
  follow IEEE semantics (any comparison with `nan` is false, `0/0 = nan`,
  `x/0 = ±inf` for `x ≠ 0`);
* a DataFrame row is a `Bar` and a series is a `List Bar` in chronological
  order; pandas rolling windows with the default `min_periods` are modelled
  by `rollingMean`;
* `scipy.signal.argrelextrema(·, np.greater_equal, order=5)` (default
  `mode = clip`) is modelled by `isFractalHigh`;
* Python `round(x, 2)` is modelled by round-half-to-even on the exact
  rational scaled by 100.
-/

set_option maxRecDepth 100000

namespace PSX

/-- Extended float value: `nan`, `+inf`, `-inf`, or a finite rational. -/
inductive EF where
  | nan : EF
  | inf : EF
  | ninf : EF
  | fin : ℚ → EF
deriving DecidableEq, Repr

/-- IEEE addition (used for window sums). -/
def EF.add : EF → EF → EF
  | .nan, _ => .nan
  | _, .nan => .nan
  | .inf, .ninf => .nan
  | .ninf, .inf => .nan
  | .inf, _ => .inf
  | _, .inf => .inf
  | .ninf, _ => .ninf
  | _, .ninf => .ninf
  | .fin a, .fin b => .fin (a + b)

/-- IEEE negation. -/
def EF.neg : EF → EF
  | .nan => .nan
  | .inf => .ninf
  | .ninf => .inf
  | .fin a => .fin (-a)

/-- IEEE subtraction. -/
def EF.sub (a b : EF) : EF := EF.add a (EF.neg b)

/-- IEEE multiplication. -/
def EF.mul : EF → EF → EF
  | .nan, _ => .nan
  | _, .nan => .nan
  | .inf, .inf => .inf
  | .inf, .ninf => .ninf
  | .ninf, .inf => .ninf
  | .ninf, .ninf => .inf
  | .inf, .fin b => if b = 0 then .nan else if 0 < b then .inf else .ninf
  | .fin a, .inf => if a = 0 then .nan else if 0 < a then .inf else .ninf
  | .ninf, .fin b => if b = 0 then .nan else if 0 < b then .ninf else .inf
  | .fin a, .ninf => if a = 0 then .nan else if 0 < a then .ninf else .inf
  | .fin a, .fin b => .fin (a * b)

/-- IEEE division: `0/0 = nan`, `x/0 = ±inf` for finite `x ≠ 0`
(numpy emits a warning but yields exactly these values). -/
def EF.div : EF → EF → EF
  | .nan, _ => .nan
  | _, .nan => .nan
  | .inf, .inf => .nan
  | .inf, .ninf => .nan
  | .ninf, .inf => .nan
  | .ninf, .ninf => .nan
  | .inf, .fin b => if 0 ≤ b then .inf else .ninf
  | .ninf, .fin b => if 0 ≤ b then .ninf else .inf
  | .fin _, .inf => .fin 0
  | .fin _, .ninf => .fin 0
  | .fin a, .fin b =>
    if b = 0 then (if a = 0 then .nan else if 0 < a then .inf else .ninf)
    else .fin (a / b)

/-- IEEE strict less-than: every comparison against `nan` is false. -/
def EF.lt : EF → EF → Bool
  | .nan, _ => false
  | _, .nan => false
  | .inf, _ => false
  | _, .inf => true
  | .ninf, .ninf => false
  | .ninf, _ => true
  | _, .ninf => false
  | .fin a, .fin b => decide (a < b)

/-- `np.maximum`: propagates `nan`. -/
def EF.fmax (a b : EF) : EF :=
  match a, b with
  | .nan, _ => .nan
  | _, .nan => .nan
  | x, y => if EF.lt x y then y else x

/-- Binary maximum on ℚ, written to reduce in the kernel. -/
def qmax (a b : ℚ) : ℚ := if a ≤ b then b else a

/-- Absolute value on ℚ, written to reduce in the kernel. -/
def qabs (a : ℚ) : ℚ := if a < 0 then -a else a

/-- Round half to even (Python `round` tie-breaking) of a rational to an integer. -/
def roundHalfEven (q : ℚ) : ℤ :=
  if q - ⌊q⌋ < 1/2 then ⌊q⌋
  else if (1/2 : ℚ) < q - ⌊q⌋ then ⌊q⌋ + 1
  else if ⌊q⌋ % 2 = 0 then ⌊q⌋ else ⌊q⌋ + 1

/-- Python `round(x, 2)` on the exact rational model. -/
def EF.round2 : EF → EF
  | .nan => .nan
  | .inf => .inf
  | .ninf => .ninf
  | .fin q => .fin ((roundHalfEven (q * 100) : ℚ) / 100)

/-- pandas `rolling(w).mean()` at position `i` (default `min_periods = w`):
`nan` while the window is incomplete, and `nan` propagates from any window
element through the sum. -/
def rollingMean (f : ℕ → EF) (w i : ℕ) : EF :=
  if i + 1 < w then EF.nan
  else EF.div ((List.range w).foldl (fun acc k => EF.add acc (f (i - k))) (EF.fin 0))
        (EF.fin (w : ℚ))

/-- One OHLCV row of the input DataFrame. -/
structure Bar where
  high : ℚ
  low : ℚ
  close : ℚ
  volume : ℚ
deriving DecidableEq, Repr

/-- `df.iloc[i]` (positional access; out-of-range only feeds `nan` guards). -/
def barAt (df : List Bar) (i : ℕ) : Bar := df.getD i ⟨0, 0, 0, 0⟩

/-- True range column:
`max(high - low, |high - close.shift(1)|, |low - close.shift(1)|)`;
`nan` at position 0 because `shift(1)` is `nan` there. -/
def tr (df : List Bar) (i : ℕ) : EF :=
  if i = 0 ∨ df.length ≤ i then EF.nan
  else EF.fin (qmax ((barAt df i).high - (barAt df i).low)
    (qmax (qabs ((barAt df i).high - (barAt df (i - 1)).close))
          (qabs ((barAt df i).low - (barAt df (i - 1)).close))))

/-- `df['atr_14'] = df['tr'].rolling(14).mean()`. -/
def atr_14 (df : List Bar) (i : ℕ) : EF := rollingMean (tr df) 14 i

/-- `df['atr_5'] = df['tr'].rolling(5).mean()`. -/
def atr_5 (df : List Bar) (i : ℕ) : EF := rollingMean (tr df) 5 i

/-- `df['atr_20'] = df['tr'].rolling(20).mean()`. -/
def atr_20 (df : List Bar) (i : ℕ) : EF := rollingMean (tr df) 20 i

/-- `df['compression_ratio'] = df['atr_5'] / df['atr_20']`. -/
def compression_ratio (df : List Bar) (i : ℕ) : EF :=
  EF.div (atr_5 df i) (atr_20 df i)

/-- The raw volume column as an `EF` stream. -/
def volAt (df : List Bar) (i : ℕ) : EF :=
  if df.length ≤ i then EF.nan else EF.fin (barAt df i).volume

/-- `df['vol_sma_20'] = df['volume'].rolling(20).mean()`. -/
def vol_sma_20 (df : List Bar) (i : ℕ) : EF := rollingMean (volAt df) 20 i

/-- A clustered horizontal resistance zone. -/
structure Zone where
  level : ℚ
  touches : ℕ
deriving DecidableEq, Repr

/-- `self.df.iloc[-250:]` high column (the `lookback` slice). -/
def highsOf (df : List Bar) : List ℚ := (df.drop (df.length - 250)).map Bar.high

/-- `argrelextrema(highs, np.greater_equal, order=5)` membership with the
default `clip` boundary mode: position `i` qualifies when its high is `≥`
the high at every clipped offset `i ± s`, `1 ≤ s ≤ 5`. -/
def isFractalHigh (hs : List ℚ) (i : ℕ) : Bool :=
  (List.range 5).all fun s =>
    decide (hs.getD (min (i + (s + 1)) (hs.length - 1)) 0 ≤ hs.getD i 0) &&
    decide (hs.getD (i - (s + 1)) 0 ≤ hs.getD i 0)

/-- The fractal-high prices in chronological order. -/
def fractalHighs (hs : List ℚ) : List ℚ :=
  ((List.range hs.length).filter (isFractalHigh hs)).map (fun i => hs.getD i 0)

/-- One step of the zone-clustering loop: merge `p` into the first zone
within 2% relative tolerance (bumping `touches` and keeping the higher
level), otherwise append a fresh 1-touch zone at the end. -/
def insertHigh : List Zone → ℚ → List Zone
  | [], p => [⟨p, 1⟩]
  | z :: zs, p =>
    if qabs (z.level - p) / z.level ≤ (2 : ℚ) / 100 then
      ⟨qmax z.level p, z.touches + 1⟩ :: zs
    else z :: insertHigh zs p

/-- Ordering of zones by level (the `sorted(..., key=level)` order). -/
def zoneLE (a b : Zone) : Prop := a.level ≤ b.level

instance : DecidableRel zoneLE := fun a b => inferInstanceAs (Decidable (a.level ≤ b.level))

instance : IsTotal Zone zoneLE := ⟨fun a b => le_total a.level b.level⟩

instance : IsTrans Zone zoneLE := ⟨fun _ _ _ h1 h2 => le_trans h1 h2⟩

/-- `StructuralScanner._find_structural_zones` with the default
`lookback=250`, `tolerance=0.02`, `order=5`: cluster the fractal highs,
keep zones with `touches ≥ 3`, and return them sorted ascending by level
(Python `sorted` is stable; so is insertion sort). -/
def find_structural_zones (df : List Bar) : List Zone :=
  List.insertionSort zoneLE
    (((fractalHighs (highsOf df)).foldl insertHigh []).filter
      (fun z => decide (3 ≤ z.touches)))

/-- A raw breakout candidate as appended by `evaluate_breakout`. -/
structure Candidate where
  level : ℚ
  touches : ℕ
  vol_expansion : EF
  atr_extension : EF
  compression_score : EF
deriving DecidableEq, Repr

/-- `self.df.iloc[-1]` (today). -/
def lastBar (df : List Bar) : Bar := barAt df (df.length - 1)

/-- `self.df.iloc[-2]` (yesterday). -/
def prevBar (df : List Bar) : Bar := barAt df (df.length - 2)

/-- `dist_mult = (today['close'] - level) / today['atr_14']`. -/
def distMult (df : List Bar) (level : ℚ) : EF :=
  EF.div (EF.fin ((lastBar df).close - level)) (atr_14 df (df.length - 1))

/-- `vol_mult = today['volume'] / today['vol_sma_20']`. -/
def volMult (df : List Bar) : EF :=
  EF.div (EF.fin (lastBar df).volume) (vol_sma_20 df (df.length - 1))

/-- `prev_compression = yesterday['compression_ratio']`. -/
def prevCompression (df : List Bar) : EF :=
  compression_ratio df (df.length - 2)

/-- The body of the per-zone loop of `evaluate_breakout`: the crossing test
on the last two closes, then the three `continue` gates (extension `< 0.75`,
volume `< 1.8`, prior compression `> 1.0`), then the appended candidate. -/
def evalZone (df : List Bar) (z : Zone) : Option Candidate :=
  if (prevBar df).close < z.level ∧ z.level < (lastBar df).close then
    if EF.lt (distMult df z.level) (EF.fin (3 / 4)) then none
    else if EF.lt (volMult df) (EF.fin (9 / 5)) then none
    else if EF.lt (EF.fin 1) (prevCompression df) then none
    else some ⟨z.level, z.touches, EF.round2 (volMult df), EF.round2 (distMult df z.level),
      EF.round2 (EF.sub (EF.fin 1) (prevCompression df))⟩
  else none

/-- `StructuralScanner.evaluate_breakout` (metric columns are recomputed on
entry; in this pure embedding they are the functions above): `None` when
fewer than 25 rows, `None` when today's turnover misses `min_liquidity`,
otherwise the per-zone candidates in zone order. -/
def evaluate_breakout (minLiquidity : ℚ) (df : List Bar) : Option (List Candidate) :=
  if df.length < 25 then none
  else if (lastBar df).close * (lastBar df).volume < minLiquidity then none
  else some ((find_structural_zones df).filterMap (evalZone df))

/-! ### Market-regime assessment (`AgenticEvaluator._assess_market_regime`) -/

/-- Regime classification labels. -/
inductive Status where
  | RISK_ON : Status
  | RISK_OFF : Status
  | OVEREXTENDED : Status
  | NEUTRAL : Status
deriving DecidableEq, Repr

/-- The dictionary returned by `_assess_market_regime`. -/
structure RegimeState where
  status : Status
  vol_mult : ℚ
deriving DecidableEq, Repr

/-- The index close column as an `EF` stream. -/
def closeAt (df : List Bar) (i : ℕ) : EF :=
  if df.length ≤ i then EF.nan else EF.fin (barAt df i).close

/-- `delta = df_index['close'].diff()` (`nan` at position 0). -/
def deltaAt (df : List Bar) (i : ℕ) : EF :=
  if i = 0 ∨ df.length ≤ i then EF.nan
  else EF.fin ((barAt df i).close - (barAt df (i - 1)).close)

/-- `delta.where(delta > 0, 0)`: the `nan` at position 0 fails the
condition, so it is replaced by 0 like every non-positive delta. -/
def gainAt (df : List Bar) (i : ℕ) : EF :=
  if df.length ≤ i then EF.nan
  else match deltaAt df i with
    | EF.fin d => if 0 < d then EF.fin d else EF.fin 0
    | _ => EF.fin 0

/-- `(-delta.where(delta < 0, 0))`. -/
def lossAt (df : List Bar) (i : ℕ) : EF :=
  if df.length ≤ i then EF.nan
  else match deltaAt df i with
    | EF.fin d => if d < 0 then EF.fin (-d) else EF.fin 0
    | _ => EF.fin 0

/-- `gain.rolling(14).mean()` on the last row. -/
def lastGain (df : List Bar) : EF := rollingMean (gainAt df) 14 (df.length - 1)

/-- `loss.rolling(14).mean()` on the last row. -/
def lastLoss (df : List Bar) : EF := rollingMean (lossAt df) 14 (df.length - 1)

/-- `rs = gain / loss` on the last row. -/
def rsLast (df : List Bar) : EF := EF.div (lastGain df) (lastLoss df)

/-- `rsi = 100 - (100 / (1 + rs))` on the last row. -/
def rsiLast (df : List Bar) : EF :=
  EF.sub (EF.fin 100) (EF.div (EF.fin 100) (EF.add (EF.fin 1) (rsLast df)))

/-- `current_close = df_index['close'].iloc[-1]`. -/
def lastClose (df : List Bar) : ℚ := (lastBar df).close

/-- `df_index['sma_200'].iloc[-1]` (200-bar rolling mean of close). -/
def sma200Last (df : List Bar) : EF := rollingMean (closeAt df) 200 (df.length - 1)

/-- `current_sma`: the `np.isnan` fallback to the current close. -/
def currentSma (df : List Bar) : EF :=
  match sma200Last df with
  | EF.nan => EF.fin (lastClose df)
  | x => x

/-- `current_rsi`: the `np.isnan` fallback to the neutral value 50. -/
def currentRsi (df : List Bar) : EF :=
  match rsiLast df with
  | EF.nan => EF.fin 50
  | x => x

/-- `AgenticEvaluator._assess_market_regime`: `NEUTRAL` when the index
series is absent or empty; otherwise the prioritized if/elif chain on
`current_close`, `current_sma` and `current_rsi`. -/
def assessRegime : Option (List Bar) → RegimeState
  | none => ⟨Status.NEUTRAL, 1⟩
  | some df =>
    if df.isEmpty then ⟨Status.NEUTRAL, 1⟩
    else if EF.lt (EF.fin (lastClose df)) (currentSma df) &&
            EF.lt (currentRsi df) (EF.fin 45) then ⟨Status.RISK_OFF, 14 / 10⟩
    else if EF.lt (EF.mul (currentSma df) (EF.fin (115 / 100))) (EF.fin (lastClose df)) &&
            EF.lt (EF.fin 75) (currentRsi df) then ⟨Status.OVEREXTENDED, 12 / 10⟩
    else ⟨Status.RISK_ON, 1⟩

/-! ### Context filter (`AgenticEvaluator.evaluate_signal`) -/

/-- The `next_resistance` annotation written into the accepted signal:
either the blue-sky marker or a resistance level with its upside percent. -/
inductive SignalNote where
  | blueSky : SignalNote
  | resistance : ℚ → ℚ → SignalNote
deriving DecidableEq, Repr

/-- `AgenticEvaluator.evaluate_signal`: the regime-adjusted volume gate,
the scan for the first zone strictly above `level * 1.03` (a `for` loop
with `break`, i.e. `find?`), and the low-upside rejection outside
`RISK_ON`; on acceptance the annotation that the code writes into
`signal_data['next_resistance']`. -/
def evaluate_signal (regime : RegimeState) (c : Candidate) (zones : List Zone) :
    Option SignalNote :=
  if EF.lt c.vol_expansion (EF.fin (9 / 5 * regime.vol_mult)) then none
  else
    match zones.find? (fun z => decide (c.level * (103 / 100) < z.level)) with
    | none => some SignalNote.blueSky
    | some z =>
      if (z.level - c.level) / c.level * 100 < 5 ∧ regime.status ≠ Status.RISK_ON then none
      else some (SignalNote.resistance z.level ((z.level - c.level) / c.level * 100))

/-! ### The mutable DataFrame (`self.df`) for the frame/effect claim -/

/-- `df['tr']` as a materialized column. -/
def trList (bars : List Bar) : List EF := (List.range bars.length).map (tr bars)

/-- `df['atr_14']` as a materialized column. -/
def atr14List (bars : List Bar) : List EF := (List.range bars.length).map (atr_14 bars)

/-- `df['atr_5']` as a materialized column. -/
def atr5List (bars : List Bar) : List EF := (List.range bars.length).map (atr_5 bars)

/-- `df['atr_20']` as a materialized column. -/
def atr20List (bars : List Bar) : List EF := (List.range bars.length).map (atr_20 bars)

/-- `df['compression_ratio']` as a materialized column. -/
def compressionList (bars : List Bar) : List EF :=
  (List.range bars.length).map (compression_ratio bars)

/-- `df['vol_sma_20']` as a materialized column. -/
def volSmaList (bars : List Bar) : List EF := (List.range bars.length).map (vol_sma_20 bars)

/-- The caller's DataFrame object: the raw OHLCV rows plus the derived
columns, which are absent (`none`) until `_calculate_metrics` assigns them. -/
structure Frame where
  bars : List Bar
  tr_col : Option (List EF)
  atr14_col : Option (List EF)
  atr5_col : Option (List EF)
  atr20_col : Option (List EF)
  compression_col : Option (List EF)
  vol_sma_col : Option (List EF)
deriving DecidableEq, Repr

/-- `StructuralScanner._calculate_metrics`: writes (or overwrites) the six
derived columns of `self.df` in place, each recomputed from the raw rows. -/
def calculate_metrics (f : Frame) : Frame :=
  ⟨f.bars, some (trList f.bars), some (atr14List f.bars), some (atr5List f.bars),
    some (atr20List f.bars), some (compressionList f.bars), some (volSmaList f.bars)⟩

/-- `evaluate_breakout` observed together with its effect on the caller's
DataFrame: the returned pair is (the DataFrame object after the call, the
returned candidates). `_calculate_metrics` runs first unconditionally. -/
def evaluate_breakout_frame (minLiquidity : ℚ) (f : Frame) :
    Frame × Option (List Candidate) :=
  (calculate_metrics f, evaluate_breakout minLiquidity f.bars)

/-! ### Concrete input series used by the claims -/

/-- Bar `i` of the end-to-end scenario series: 259 bars with high 100 and
close 99 (lows stepped to shape the true-range windows), then a breakout
bar closing at 105 on 3× average volume. -/
def c1Bar (i : ℕ) : Bar :=
  if i = 259 then ⟨105, 99, 105, 5700000⟩
  else if 254 ≤ i then ⟨100, 98, 99, 1700000⟩
  else if 246 ≤ i then ⟨100, 197 / 2, 99, 1700000⟩
  else if 239 ≤ i then ⟨100, 96, 99, 1700000⟩
  else ⟨100, 99, 99, 1700000⟩

/-- The 260-bar end-to-end scenario series. -/
def c1Series : List Bar := (List.range 260).map c1Bar

/-- Bar `i` of the degenerate-arithmetic series: three isolated peaks at
110 over a dead-flat tape at 100 (so `atr_5 = atr_20 = 0` on the
second-to-last bar), then a breakout bar closing at 115. -/
def c3Bar (i : ℕ) : Bar :=
  if i = 39 then ⟨115, 100, 115, 10000000⟩
  else if i = 2 ∨ i = 8 ∨ i = 14 then ⟨110, 100, 100, 1000000⟩
  else ⟨100, 100, 100, 1000000⟩

/-- The 40-bar degenerate-arithmetic series. -/
def c3Series : List Bar := (List.range 40).map c3Bar

/-- A 14-bar index series with strictly increasing closes: the RSI loss
term is 0 on the last bar while the gain term is positive. -/
def c5Inc : List Bar := (List.range 14).map fun i =>
  ⟨(i : ℚ) + 1, (i : ℚ) + 1, (i : ℚ) + 1, 1⟩

/-- A 14-bar dead-flat index series: gain and loss both 0 on the last bar,
and `sma_200` undefined. -/
def c5Flat : List Bar := (List.range 14).map fun _ => ⟨100, 100, 100, 1⟩

/-- A 25-bar series with a 19-touch zone at 100 and a final breakout bar:
the smallest series that produces a candidate through every gate. -/
def smallBreakoutBar (i : ℕ) : Bar :=
  if i = 24 then ⟨106, 99, 106, 10000000⟩ else ⟨100, 98, 99, 1000000⟩

/-- The 25-bar breakout series. -/
def smallBreakout : List Bar := (List.range 25).map smallBreakoutBar

/-- The 25-bar breakout series with negligible volume: today's turnover is
`106 < 10_000_000`, although the same crossing as in `smallBreakout` holds. -/
def illiquidBreakout : List Bar := (List.range 25).map fun i =>
  if i = 24 then ⟨106, 99, 106, 1⟩ else ⟨100, 98, 99, 1⟩

/-- A 5-bar series (fewer than 25 usable bars). -/
def shortSeries : List Bar := (List.range 5).map fun _ => ⟨100, 99, 99, 1000000⟩

/-- The candidate with `vol_expansion = 1.85` from the context-gate claim. -/
def cand185 : Candidate := ⟨100, 3, EF.fin (37 / 20), EF.fin 2, EF.fin (1 / 10)⟩

/-- The candidate produced by `smallBreakout` (used to instantiate theorems). -/
def smallCand : Candidate := ⟨100, 19, EF.fin (69 / 10), EF.fin (51 / 20), EF.fin 0⟩

/-- A DataFrame that has not yet been touched by the scanner. -/
def c9Frame : Frame := ⟨shortSeries, none, none, none, none, none, none⟩

/-! ### Helper lemmas about the value model -/

theorem EF.add_nan_right (x : EF) : EF.add x EF.nan = EF.nan := by cases x <;> rfl

theorem EF.div_nan_right (x : EF) : EF.div x EF.nan = EF.nan := by cases x <;> rfl

theorem EF.sub_nan_right (x : EF) : EF.sub x EF.nan = EF.nan := by cases x <;> rfl

theorem EF.sub_fin (a b : ℚ) : EF.sub (EF.fin a) (EF.fin b) = EF.fin (a - b) := by
  simp [EF.sub, EF.add, EF.neg, sub_eq_add_neg]

theorem EF.div_fin_of_ne {b : ℚ} (a : ℚ) (hb : b ≠ 0) :
    EF.div (EF.fin a) (EF.fin b) = EF.fin (a / b) := by
  simp [EF.div, hb]

theorem EF.lt_fin_false_iff {a b : ℚ} : EF.lt (EF.fin a) (EF.fin b) = false ↔ b ≤ a := by
  simp [EF.lt, not_lt]

/-- `roundHalfEven` never rounds below an integer lower bound. -/
theorem roundHalfEven_ge {m : ℤ} {q : ℚ} (h : (m : ℚ) ≤ q) : m ≤ roundHalfEven q := by
  have hfloor : m ≤ ⌊q⌋ := Int.le_floor.mpr h
  unfold roundHalfEven
  split
  · exact hfloor
  · split
    · omega
    · split
      · exact hfloor
      · omega

/-- `round(x, 2)` of a finite value keeps any lower bound that is a
multiple of `1/100`. -/
theorem round2_fin_ge {q c : ℚ} (m : ℤ) (hm : (m : ℚ) = c * 100) (h : c ≤ q) :
    ∃ r : ℚ, EF.round2 (EF.fin q) = EF.fin r ∧ c ≤ r := by
  refine ⟨(roundHalfEven (q * 100) : ℚ) / 100, rfl, ?_⟩
  have h1 : (m : ℚ) ≤ q * 100 := by rw [hm]; nlinarith
  have h2 : m ≤ roundHalfEven (q * 100) := roundHalfEven_ge h1
  have h3 : (m : ℚ) ≤ (roundHalfEven (q * 100) : ℚ) := by exact_mod_cast h2
  rw [le_div_iff₀ (by norm_num : (0 : ℚ) < 100)]
  nlinarith [h3, hm]

/-! ### Helper lemmas about the scanner -/

/-- Every zone returned by `_find_structural_zones` survived the
`touches >= 3` filter. -/
theorem touches_of_mem_zones {df : List Bar} {z : Zone}
    (h : z ∈ find_structural_zones df) : 3 ≤ z.touches := by
  unfold find_structural_zones at h
  rw [List.mem_insertionSort] at h
  exact of_decide_eq_true (List.mem_filter.mp h).2

/-- A candidate in the result of `evaluate_breakout` comes from some zone. -/
theorem mem_breakout_elim {mL : ℚ} {df : List Bar} {cs : List Candidate} {c : Candidate}
    (h : evaluate_breakout mL df = some cs) (hc : c ∈ cs) :
    ∃ z ∈ find_structural_zones df, evalZone df z = some c := by
  unfold evaluate_breakout at h
  split at h
  · exact absurd h (by simp)
  · split at h
    · exact absurd h (by simp)
    · injection h with h
      subst h
      exact List.mem_filterMap.mp hc

/-- Everything that is true of a zone whose `evalZone` check succeeded:
the crossing condition, the three failed `continue` gates, and the shape
of the appended candidate. -/
theorem evalZone_eq_some_elim {df : List Bar} {z : Zone} {c : Candidate}
    (h : evalZone df z = some c) :
    ((prevBar df).close < z.level ∧ z.level < (lastBar df).close) ∧
    EF.lt (distMult df z.level) (EF.fin (3 / 4)) = false ∧
    EF.lt (volMult df) (EF.fin (9 / 5)) = false ∧
    EF.lt (EF.fin 1) (prevCompression df) = false ∧
    c = ⟨z.level, z.touches, EF.round2 (volMult df), EF.round2 (distMult df z.level),
      EF.round2 (EF.sub (EF.fin 1) (prevCompression df))⟩ := by
  unfold evalZone at h
  split at h
  case isFalse => exact absurd h (by simp)
  case isTrue hcross =>
    split at h
    case isTrue => exact absurd h (by simp)
    case isFalse h1 =>
      split at h
      case isTrue => exact absurd h (by simp)
      case isFalse h2 =>
        split at h
        case isTrue => exact absurd h (by simp)
        case isFalse h3 =>
          injection h with h
          exact ⟨hcross, Bool.not_eq_true _ ▸ h1, Bool.not_eq_true _ ▸ h2,
            Bool.not_eq_true _ ▸ h3, h.symm⟩

/-! ### Helper lemmas about `find?` over a level-sorted zone list -/

/-- If the scan finds no zone above the threshold, all zones are at or
below it. -/
theorem find_none_levels {t : ℚ} {zones : List Zone}
    (h : zones.find? (fun z => decide (t < z.level)) = none) :
    ∀ z ∈ zones, z.level ≤ t := by
  intro z hz
  have := List.find?_eq_none.mp h z hz
  simpa [not_lt] using this

/-- On a level-sorted list, the first zone above the threshold has the
least level among zones above the threshold. -/
theorem find_some_least {t : ℚ} {zones : List Zone} {w : Zone}
    (hs : zones.Pairwise zoneLE)
    (h : zones.find? (fun z => decide (t < z.level)) = some w) :
    w ∈ zones ∧ t < w.level ∧ ∀ z ∈ zones, t < z.level → w.level ≤ z.level := by
  induction zones with
  | nil => exact absurd h (by simp)
  | cons a l ih =>
    rcases List.pairwise_cons.mp hs with ⟨ha, hl⟩
    by_cases hpa : t < a.level
    · rw [List.find?_cons_of_pos _ (by simpa using hpa)] at h
      injection h with h
      subst h
      refine ⟨List.mem_cons_self _ _, hpa, ?_⟩
      intro z hz _
      rcases List.mem_cons.mp hz with rfl | hz
      · exact le_refl _
      · exact ha z hz
    · rw [List.find?_cons_of_neg _ (by simpa using hpa)] at h
      obtain ⟨hw1, hw2, hw3⟩ := ih hl h
      refine ⟨List.mem_cons_of_mem _ hw1, hw2, ?_⟩
      intro z hz hzt
      rcases List.mem_cons.mp hz with rfl | hz
      · exact absurd hzt hpa
      · exact hw3 z hz hzt

/-- Conversely, a zone above the threshold with minimal level is (up to
its level) what the scan finds on a level-sorted list. -/
theorem find_of_least {t : ℚ} {zones : List Zone} {z : Zone}
    (hs : zones.Pairwise zoneLE) (hz : z ∈ zones) (hzt : t < z.level)
    (hmin : ∀ y ∈ zones, t < y.level → z.level ≤ y.level) :
    ∃ w, zones.find? (fun y => decide (t < y.level)) = some w ∧ w.level = z.level := by
  induction zones with
  | nil => exact absurd hz (by simp)
  | cons a l ih =>
    rcases List.pairwise_cons.mp hs with ⟨ha, hl⟩
    by_cases hpa : t < a.level
    · refine ⟨a, List.find?_cons_of_pos _ (by simpa using hpa), ?_⟩
      rcases List.mem_cons.mp hz with rfl | hzl
      · rfl
      · exact le_antisymm (ha z hzl) (hmin a (List.mem_cons_self _ _) hpa)
    · rcases List.mem_cons.mp hz with rfl | hzl
      · exact absurd hzt hpa
      · rw [List.find?_cons_of_neg _ (by simpa using hpa)]
        exact ih hl hzl fun y hy hyt => hmin y (List.mem_cons_of_mem _ hy) hyt

/-! ### Claim theorems -/

/-- C1: end-to-end scenario. On the 260-bar series `c1Series` — flat with
highs at 100 for the first 259 bars (bars 239–258 carry the lows that make
`compression_ratio` on the second-to-last bar exactly 0.8 and `atr_14` on
the last bar exactly 2), a last bar closing at 105 on volume equal to 3×
the 20-bar average, and a multi-touch zone clustered at level 100 —
`evaluate_breakout` yields exactly one candidate, with level 100,
`atr_extension` 2.5, `vol_expansion` 3.0 and `compression_score` 0.2. -/
theorem c1_end_to_end :
    c1Series.length = 260 ∧
    compression_ratio c1Series 258 = EF.fin (4 / 5) ∧
    atr_14 c1Series 259 = EF.fin 2 ∧
    volMult c1Series = EF.fin 3 ∧
    (∃ z ∈ find_structural_zones c1Series, z.level = 100 ∧ 3 ≤ z.touches) ∧
    evaluate_breakout 10000000 c1Series =
      some [⟨100, 244, EF.fin 3, EF.fin (5 / 2), EF.fin (1 / 5)⟩] := by
  refine ⟨by decide, by with_unfolding_all rfl, by with_unfolding_all rfl,
    by with_unfolding_all rfl, ⟨⟨100, 244⟩, ?_, rfl, by decide⟩, by with_unfolding_all rfl⟩
  have hz : find_structural_zones c1Series = [⟨100, 244⟩] := by with_unfolding_all rfl
  rw [hz]
  exact List.mem_singleton_self _

/-- C2: the crossing condition is necessary. Whenever `evaluate_breakout`
returns candidates, each one closed its zone's level strictly between
yesterday's close and today's close: `close[-2] < level < close[-1]`. In
particular a level already broken earlier (so that `close[-2] >= level`)
can never produce a new candidate. -/
theorem c2_crossing_necessary (mL : ℚ) (df : List Bar) (cs : List Candidate) (c : Candidate)
    (h : evaluate_breakout mL df = some cs) (hc : c ∈ cs) :
    (prevBar df).close < c.level ∧ c.level < (lastBar df).close := by
  obtain ⟨z, _, hz⟩ := mem_breakout_elim h hc
  obtain ⟨⟨h1, h2⟩, _, _, _, rfl⟩ := evalZone_eq_some_elim hz
  exact ⟨h1, h2⟩

/-- Witness for C2 at the concrete 25-bar breakout series. -/
theorem c2_crossing_necessary_witness :
    (prevBar smallBreakout).close < smallCand.level ∧
    smallCand.level < (lastBar smallBreakout).close := by
  have h : evaluate_breakout 10000000 smallBreakout = some [smallCand] := by
    with_unfolding_all rfl
  exact c2_crossing_necessary 10000000 smallBreakout [smallCand] smallCand h
    (List.mem_singleton_self _)

/-- C3 counterexample: on `c3Series` the prior compression ratio is
`0/0 = NaN` (dead-flat 21 bars before the breakout), yet the zone at 110
is NOT skipped: a candidate is emitted and its `compression_score` is
`NaN`, contradicting the claim that degenerate arithmetic causes the zone
to be skipped and that no candidate ever carries a NaN ratio. -/
theorem c3_counterexample :
    prevCompression c3Series = EF.nan ∧
    evaluate_breakout 10000000 c3Series =
      some [⟨110, 3, EF.fin (69 / 10), EF.fin (467 / 100), EF.nan⟩] := by
  constructor
  · with_unfolding_all rfl
  · with_unfolding_all rfl

/-- C3 amended: an undefined (`NaN`) prior compression ratio does not skip
the zone — `NaN > 1.0` is false, so the compression gate passes — and the
emitted candidate's `compression_score` is itself `NaN`. -/
theorem c3_nan_compression_passes (mL : ℚ) (df : List Bar) (cs : List Candidate) (c : Candidate)
    (h : evaluate_breakout mL df = some cs) (hc : c ∈ cs)
    (hnan : prevCompression df = EF.nan) :
    c.compression_score = EF.nan := by
  obtain ⟨z, _, hz⟩ := mem_breakout_elim h hc
  obtain ⟨_, _, _, _, rfl⟩ := evalZone_eq_some_elim hz
  show EF.round2 (EF.sub (EF.fin 1) (prevCompression df)) = EF.nan
  rw [hnan, EF.sub_nan_right]
  rfl

/-- Witness for the amended C3 at the concrete degenerate series. -/
theorem c3_nan_compression_passes_witness :
    (⟨110, 3, EF.fin (69 / 10), EF.fin (467 / 100), EF.nan⟩ :
      Candidate).compression_score = EF.nan := by
  have h : evaluate_breakout 10000000 c3Series =
      some [⟨110, 3, EF.fin (69 / 10), EF.fin (467 / 100), EF.nan⟩] := by
    with_unfolding_all rfl
  exact c3_nan_compression_passes 10000000 c3Series _ _ h (List.mem_singleton_self _)
    (by with_unfolding_all rfl)

/-- C4: the context filter. For a finite `vol_expansion` and a
level-sorted zone list (the shape `_find_structural_zones` always returns,
per the data model's zone-list invariant), `evaluate_signal` accepts a
candidate iff `vol_expansion ≥ 1.8 × regime.vol_mult` and either no zone
level lies strictly above `level × 1.03` (blue-sky annotation) or the
lowest such level gives `upside% ≥ 5` or the regime is `RISK_ON`
(resistance annotation with that level and upside%). In particular the
1.85-volume candidate is rejected under `RISK_OFF` (required 2.52) and
accepted under `RISK_ON` (required 1.8), all else equal. -/
theorem c4_context_filter :
    (∀ (r : RegimeState) (c : Candidate) (zones : List Zone) (v : ℚ),
      zones.Pairwise zoneLE → c.vol_expansion = EF.fin v →
      ((evaluate_signal r c zones).isSome = true ↔
        (9 / 5 * r.vol_mult ≤ v ∧
          ((∀ z ∈ zones, z.level ≤ c.level * (103 / 100)) ∨
            ∃ z ∈ zones, c.level * (103 / 100) < z.level ∧
              (∀ y ∈ zones, c.level * (103 / 100) < y.level → z.level ≤ y.level) ∧
              (5 ≤ (z.level - c.level) / c.level * 100 ∨ r.status = Status.RISK_ON))))) ∧
    (∀ (r : RegimeState) (c : Candidate) (zones : List Zone) (v : ℚ),
      c.vol_expansion = EF.fin v → 9 / 5 * r.vol_mult ≤ v →
      (∀ z ∈ zones, z.level ≤ c.level * (103 / 100)) →
      evaluate_signal r c zones = some SignalNote.blueSky) ∧
    (∀ (r : RegimeState) (c : Candidate) (zones : List Zone) (v : ℚ) (z : Zone),
      zones.Pairwise zoneLE → c.vol_expansion = EF.fin v → 9 / 5 * r.vol_mult ≤ v →
      z ∈ zones → c.level * (103 / 100) < z.level →
      (∀ y ∈ zones, c.level * (103 / 100) < y.level → z.level ≤ y.level) →
      (5 ≤ (z.level - c.level) / c.level * 100 ∨ r.status = Status.RISK_ON) →
      evaluate_signal r c zones =
        some (SignalNote.resistance z.level ((z.level - c.level) / c.level * 100))) ∧
    evaluate_signal ⟨Status.RISK_OFF, 14 / 10⟩ cand185 [] = none ∧
    evaluate_signal ⟨Status.RISK_ON, 1⟩ cand185 [] = some SignalNote.blueSky := by
  refine ⟨?_, ?_, ?_, by with_unfolding_all rfl, by with_unfolding_all rfl⟩
  · intro r c zones v hs hv
    unfold evaluate_signal
    rw [hv]
    by_cases hreq : v < 9 / 5 * r.vol_mult
    · rw [if_pos (by simpa [EF.lt] using hreq)]
      simp only [Option.isSome_none, Bool.false_eq_true, false_iff]
      intro hcon
      exact absurd hcon.1 (not_le.mpr hreq)
    · have hle : 9 / 5 * r.vol_mult ≤ v := le_of_not_lt hreq
      rw [if_neg (by simpa [EF.lt] using hreq)]
      rcases hfind : zones.find? (fun z => decide (c.level * (103 / 100) < z.level)) with _ | w
      · simp only [hfind, Option.isSome_some, true_iff]
        exact ⟨hle, Or.inl (find_none_levels hfind)⟩
      · simp only [hfind]
        obtain ⟨hw1, hw2, hw3⟩ := find_some_least hs hfind
        by_cases hrej :
            (w.level - c.level) / c.level * 100 < 5 ∧ r.status ≠ Status.RISK_ON
        · rw [if_pos hrej]
          simp only [Option.isSome_none, Bool.false_eq_true, false_iff]
          rintro ⟨_, hall | ⟨z, hz, hzt, hzmin, hzok⟩⟩
          · exact absurd hw2 (not_lt.mpr (hall w hw1))
          · have heq : z.level = w.level := le_antisymm (hzmin w hw1 hw2) (hw3 z hz hzt)
            rcases hzok with hup | hon
            · rw [heq] at hup
              exact absurd hrej.1 (not_lt.mpr hup)
            · exact hrej.2 hon
        · rw [if_neg hrej]
          simp only [Option.isSome_some, true_iff]
          refine ⟨hle, Or.inr ⟨w, hw1, hw2, hw3, ?_⟩⟩
          rcases not_and_or.mp hrej with hup | hon
          · exact Or.inl (not_lt.mp hup)
          · exact Or.inr (not_ne_iff.mp hon)
  · intro r c zones v hv hle hall
    unfold evaluate_signal
    rw [hv, if_neg (by simp [EF.lt]; exact hle)]
    have hfind : zones.find? (fun z => decide (c.level * (103 / 100) < z.level)) = none :=
      List.find?_eq_none.mpr fun z hz => by simpa [not_lt] using hall z hz
    simp only [hfind]
  · intro r c zones v z hs hv hle hz hzt hzmin hzok
    unfold evaluate_signal
    rw [hv, if_neg (by simp [EF.lt]; exact hle)]
    obtain ⟨w, hfind, heq⟩ := find_of_least hs hz hzt hzmin
    simp only [hfind]
    rw [if_neg ?_, heq]
    rintro ⟨hup, hne⟩
    rcases hzok with h5 | hon
    · rw [heq] at hup
      exact absurd h5 (not_le.mpr hup)
    · exact hne hon

/-- Witness for C4: the general characterization instantiated at
`RISK_ON`, the 1.85-volume candidate, and the singleton zone list at 110. -/
theorem c4_context_filter_witness :
    (evaluate_signal ⟨Status.RISK_ON, 1⟩ cand185 [⟨110, 4⟩]).isSome = true ↔
      (9 / 5 * (⟨Status.RISK_ON, 1⟩ : RegimeState).vol_mult ≤ 37 / 20 ∧
        ((∀ z ∈ [(⟨110, 4⟩ : Zone)], z.level ≤ cand185.level * (103 / 100)) ∨
          ∃ z ∈ [(⟨110, 4⟩ : Zone)], cand185.level * (103 / 100) < z.level ∧
            (∀ y ∈ [(⟨110, 4⟩ : Zone)],
              cand185.level * (103 / 100) < y.level → z.level ≤ y.level) ∧
            (5 ≤ (z.level - cand185.level) / cand185.level * 100 ∨
              (⟨Status.RISK_ON, 1⟩ : RegimeState).status = Status.RISK_ON))) :=
  c4_context_filter.1 ⟨Status.RISK_ON, 1⟩ cand185 [⟨110, 4⟩] (37 / 20)
    (List.pairwise_singleton _ _) rfl

/-- C5 counterexample: on a strictly rising 14-bar index series the RSI
loss term is 0 on the last bar, yet the RSI used for classification is
100, not the claimed neutral 50 (`rs = gain/0 = inf`, and
`100 - 100/(1 + inf) = 100` is not `NaN`, so the `np.isnan` fallback does
not fire). -/
theorem c5_counterexample :
    lastLoss c5Inc = EF.fin 0 ∧ currentRsi c5Inc = EF.fin 100 ∧
    currentRsi c5Inc ≠ EF.fin 50 := by
  refine ⟨by with_unfolding_all rfl, by with_unfolding_all rfl, ?_⟩
  have h : currentRsi c5Inc = EF.fin 100 := by with_unfolding_all rfl
  rw [h]
  simp

/-- C5 amended: the neutral RSI fallback of 50 fires exactly when
`rs = gain/loss` is `NaN` — the loss term undefined (series shorter than
the 14-bar window) or gain and loss both 0 — while a zero loss with
positive gain yields RSI 100; the `sma_200` fallback to the current close
behaves as claimed. -/
theorem c5_neutral_fallbacks (df : List Bar) (_hne : df ≠ []) :
    ((lastLoss df = EF.nan ∨ (lastLoss df = EF.fin 0 ∧ lastGain df = EF.fin 0)) →
      currentRsi df = EF.fin 50) ∧
    (∀ g : ℚ, lastLoss df = EF.fin 0 → lastGain df = EF.fin g → 0 < g →
      currentRsi df = EF.fin 100) ∧
    (sma200Last df = EF.nan → currentSma df = EF.fin (lastClose df)) := by
  refine ⟨?_, ?_, ?_⟩
  · rintro (hl | ⟨hl, hg⟩)
    · have hrs : rsLast df = EF.nan := by rw [rsLast, hl, EF.div_nan_right]
      have hrsi : rsiLast df = EF.nan := by
        rw [rsiLast, hrs, EF.add_nan_right, EF.div_nan_right, EF.sub_nan_right]
      rw [currentRsi, hrsi]
    · have hrs : rsLast df = EF.nan := by
        rw [rsLast, hl, hg]
        simp [EF.div]
      have hrsi : rsiLast df = EF.nan := by
        rw [rsiLast, hrs, EF.add_nan_right, EF.div_nan_right, EF.sub_nan_right]
      rw [currentRsi, hrsi]
  · intro g hl hg hg0
    have hrs : rsLast df = EF.inf := by
      rw [rsLast, hl, hg]
      simp [EF.div, ne_of_gt hg0, hg0]
    have hrsi : rsiLast df = EF.fin 100 := by
      rw [rsiLast, hrs]
      show EF.sub (EF.fin 100) (EF.div (EF.fin 100) EF.inf) = EF.fin 100
      rw [show EF.div (EF.fin 100) EF.inf = EF.fin 0 from rfl, EF.sub_fin]
      norm_num
    rw [currentRsi, hrsi]
  · intro hs
    rw [currentSma, hs]

/-- Witness for the amended C5 at the flat 14-bar index series (gain and
loss both 0; `sma_200` undefined). -/
theorem c5_neutral_fallbacks_witness :
    currentRsi c5Flat = EF.fin 50 ∧ currentSma c5Flat = EF.fin (lastClose c5Flat) := by
  have h := c5_neutral_fallbacks c5Flat (by simp [c5Flat, List.range_succ])
  exact ⟨h.1 (Or.inr ⟨by with_unfolding_all rfl, by with_unfolding_all rfl⟩),
    h.2.2 (by with_unfolding_all rfl)⟩

/-- C6 counterexample: on a 5-bar series `evaluate_breakout` returns
Python `None` (modelled `none`), which is not an empty candidate list
(`some []`); the claim's "empty candidate list" reading is therefore
false, though no error is raised. -/
theorem c6_counterexample :
    evaluate_breakout 10000000 shortSeries = none ∧
    evaluate_breakout 10000000 shortSeries ≠ some ([] : List Candidate) := by
  have h : evaluate_breakout 10000000 shortSeries = none := by with_unfolding_all rfl
  rw [h]
  simp

/-- C6 amended: on fewer than 25 usable bars `evaluate_breakout` returns
the no-candidates sentinel `None` — a well-defined result, not an error —
rather than an empty list. -/
theorem c6_short_series_none (mL : ℚ) (df : List Bar) (h : df.length < 25) :
    evaluate_breakout mL df = none := by
  unfold evaluate_breakout
  rw [if_pos h]

/-- Witness for the amended C6 at the concrete 5-bar series. -/
theorem c6_short_series_none_witness :
    shortSeries.length < 25 ∧ evaluate_breakout 10000000 shortSeries = none :=
  ⟨by decide, c6_short_series_none 10000000 shortSeries (by decide)⟩

/-- C7: the liquidity gate rejects wholesale. If today's turnover
`close[-1] * volume[-1]` is below `min_liquidity`, the whole evaluation
returns no candidates — regardless of any zone or crossing. -/
theorem c7_liquidity_wholesale (mL : ℚ) (df : List Bar)
    (h : (lastBar df).close * (lastBar df).volume < mL) :
    evaluate_breakout mL df = none := by
  unfold evaluate_breakout
  by_cases h25 : df.length < 25
  · rw [if_pos h25]
  · rw [if_neg h25, if_pos h]

/-- Witness for C7: the illiquid 25-bar series still has the valid
crossing of level 100 (yesterday 99, today 106), yet the result is empty. -/
theorem c7_liquidity_wholesale_witness :
    (prevBar illiquidBreakout).close < 100 ∧ (100 : ℚ) < (lastBar illiquidBreakout).close ∧
    (⟨100, 19⟩ : Zone) ∈ find_structural_zones illiquidBreakout ∧
    (lastBar illiquidBreakout).close * (lastBar illiquidBreakout).volume < 10000000 ∧
    evaluate_breakout 10000000 illiquidBreakout = none := by
  have hz : find_structural_zones illiquidBreakout = [⟨100, 19⟩] := by
    with_unfolding_all rfl
  have hliq : (lastBar illiquidBreakout).close * (lastBar illiquidBreakout).volume
      < 10000000 := of_decide_eq_true (by with_unfolding_all rfl)
  refine ⟨of_decide_eq_true (by with_unfolding_all rfl),
    of_decide_eq_true (by with_unfolding_all rfl), ?_, hliq,
    c7_liquidity_wholesale 10000000 illiquidBreakout hliq⟩
  rw [hz]
  exact List.mem_singleton_self _

/-- C8: zone invariants. Every zone reported by `_find_structural_zones`
has at least 3 touches (a cluster of only 2 merged fractal highs is never
reported), and the returned list is sorted ascending by level. -/
theorem c8_zone_invariants (df : List Bar) :
    (∀ z ∈ find_structural_zones df, 3 ≤ z.touches) ∧
    (find_structural_zones df).Pairwise zoneLE := by
  refine ⟨fun z hz => touches_of_mem_zones hz, ?_⟩
  exact List.sorted_insertionSort zoneLE _

/-- Witness for C8 at the concrete 25-bar breakout series. -/
theorem c8_zone_invariants_witness :
    3 ≤ (⟨100, 19⟩ : Zone).touches ∧
    (find_structural_zones smallBreakout).Pairwise zoneLE := by
  have hz : find_structural_zones smallBreakout = [⟨100, 19⟩] := by
    with_unfolding_all rfl
  exact ⟨(c8_zone_invariants smallBreakout).1 ⟨100, 19⟩
    (by rw [hz]; exact List.mem_singleton_self _), (c8_zone_invariants smallBreakout).2⟩

/-- C9 counterexample: the scanner is not free of effects on its input.
`evaluate_breakout` calls `_calculate_metrics`, which writes six derived
columns into the caller's DataFrame in place, so the frame after the call
differs from the input frame (fields were added). -/
theorem c9_counterexample :
    (evaluate_breakout_frame 10000000 c9Frame).1 ≠ c9Frame := by
  intro hcon
  have h := congrArg Frame.tr_col hcon
  simp [evaluate_breakout_frame, calculate_metrics, c9Frame] at h

/-- C9 amended: the raw OHLCV rows of the input frame are never modified,
and evaluation is deterministic and idempotent — re-running the scanner,
including on the already-augmented frame (whose derived columns are simply
overwritten with the same recomputed values), returns identical
candidates. -/
theorem c9_scanner_frame_effect (mL : ℚ) (f : Frame) :
    (evaluate_breakout_frame mL f).1.bars = f.bars ∧
    (evaluate_breakout_frame mL ((evaluate_breakout_frame mL f).1)).2 =
      (evaluate_breakout_frame mL f).2 ∧
    (evaluate_breakout_frame mL ((evaluate_breakout_frame mL f).1)).1 =
      (evaluate_breakout_frame mL f).1 :=
  ⟨rfl, rfl, rfl⟩

/-- C10: candidate invariants. When the last-bar metrics are defined and
positive and the prior compression ratio is defined, every candidate
returned by `evaluate_breakout` has `touches ≥ 3`, a (rounded)
`vol_expansion ≥ 1.8`, a (rounded) `atr_extension ≥ 0.75`, and a
(rounded) `compression_score ≥ 0`. -/
theorem c10_candidate_invariants (mL : ℚ) (df : List Bar) (cs : List Candidate)
    (c : Candidate) (a b p : ℚ)
    (h : evaluate_breakout mL df = some cs) (hc : c ∈ cs)
    (ha : atr_14 df (df.length - 1) = EF.fin a) (ha0 : 0 < a)
    (hb : vol_sma_20 df (df.length - 1) = EF.fin b) (hb0 : 0 < b)
    (hp : compression_ratio df (df.length - 2) = EF.fin p) :
    3 ≤ c.touches ∧
    (∃ q, c.vol_expansion = EF.fin q ∧ 9 / 5 ≤ q) ∧
    (∃ q, c.atr_extension = EF.fin q ∧ 3 / 4 ≤ q) ∧
    (∃ q, c.compression_score = EF.fin q ∧ 0 ≤ q) := by
  obtain ⟨z, hzmem, hz⟩ := mem_breakout_elim h hc
  obtain ⟨_, h1, h2, h3, rfl⟩ := evalZone_eq_some_elim hz
  have hdist : distMult df z.level = EF.fin (((lastBar df).close - z.level) / a) := by
    rw [distMult, ha, EF.div_fin_of_ne _ (ne_of_gt ha0)]
  have hvol : volMult df = EF.fin ((lastBar df).volume / b) := by
    rw [volMult, hb, EF.div_fin_of_ne _ (ne_of_gt hb0)]
  have hpc : prevCompression df = EF.fin p := hp
  rw [hdist] at h1
  rw [hvol] at h2
  rw [hpc] at h3
  refine ⟨touches_of_mem_zones hzmem, ?_, ?_, ?_⟩
  · obtain ⟨q, hq, hq2⟩ :=
      round2_fin_ge (c := 9 / 5) 180 (by norm_num) (EF.lt_fin_false_iff.mp h2)
    refine ⟨q, ?_, hq2⟩
    show EF.round2 (volMult df) = EF.fin q
    rw [hvol]
    exact hq
  · obtain ⟨q, hq, hq2⟩ :=
      round2_fin_ge (c := 3 / 4) 75 (by norm_num) (EF.lt_fin_false_iff.mp h1)
    refine ⟨q, ?_, hq2⟩
    show EF.round2 (distMult df z.level) = EF.fin q
    rw [hdist]
    exact hq
  · have hple : p ≤ 1 := EF.lt_fin_false_iff.mp h3
    obtain ⟨q, hq, hq2⟩ :=
      round2_fin_ge (q := 1 - p) (c := 0) 0 (by norm_num) (by linarith)
    refine ⟨q, ?_, hq2⟩
    show EF.round2 (EF.sub (EF.fin 1) (prevCompression df)) = EF.fin q
    rw [hpc, EF.sub_fin]
    exact hq

/-- Witness for C10 at the concrete 25-bar breakout series. -/
theorem c10_candidate_invariants_witness :
    3 ≤ smallCand.touches ∧
    (∃ q, smallCand.vol_expansion = EF.fin q ∧ 9 / 5 ≤ q) ∧
    (∃ q, smallCand.atr_extension = EF.fin q ∧ 3 / 4 ≤ q) ∧
    (∃ q, smallCand.compression_score = EF.fin q ∧ 0 ≤ q) := by
  have h : evaluate_breakout 10000000 smallBreakout = some [smallCand] := by
    with_unfolding_all rfl
  exact c10_candidate_invariants 10000000 smallBreakout [smallCand] smallCand
    (33 / 14) 1450000 1 h (List.mem_singleton_self _)
    (by with_unfolding_all rfl) (by norm_num)
    (by with_unfolding_all rfl) (by norm_num)
    (by with_unfolding_all rfl)

end PSX
